import Mathlib

/-!
Shallow embedding of `predictor.py` (repository `predictor`).

Modelling conventions:
* CSV rows are `List String` (the Python `csv` module yields lists of
  strings); a file's content is a `List (List String)`.
* Python `float` values arising here are finite decimal literals and the
  exact arithmetic performed on them (`+`, `/2`, `/4`, comparisons); they
  are modelled as exact fractions (`Q` below).  Python's float comparison
  and equality are value comparisons, modelled by `Q.lt` / `Q.eqv` (cross
  multiplication), never by representation equality.
* Python `'{:.2f}'.format` rounds the value to two decimals with
  round-half-to-even and is modelled by `format2`; on the dyadic-exact
  values evaluated in this development the binary double and the exact
  fraction round identically.  Non-finite floats (`inf`, `nan`) are
  outside the model: `parseFloat` rejects them.
* `datetime.strptime '%d-%m-%Y'` / `strftime` round-trips are modelled
  with zero-padded two-digit day and month fields and four-digit years
  (1000-9999): non-canonical inputs fail the round-trip comparison in the
  source as well as failing `parseDate` here, giving the same boolean.
* Exceptions are modelled with `Option`/`Except`: `Option.none` from the
  validator is the `IndexError` a short row raises, `Except.error` carries
  the error kind.
* `random.randint (0, len rows - 10)` is modelled by a parameter `k`;
  theorems about sampling quantify over every admissible `k`.
-/

set_option maxRecDepth 40000

instance {ε α : Type} [DecidableEq ε] [DecidableEq α] : DecidableEq (Except ε α) :=
  fun a b =>
    match a, b with
    | Except.error e, Except.error f =>
      if h : e = f then isTrue (by rw [h]) else isFalse (fun hh => h (by injection hh))
    | Except.error _, Except.ok _ => isFalse (fun hh => Except.noConfusion hh)
    | Except.ok _, Except.error _ => isFalse (fun hh => Except.noConfusion hh)
    | Except.ok x, Except.ok y =>
      if h : x = y then isTrue (by rw [h]) else isFalse (fun hh => h (by injection hh))

/-- Exact fraction `num / den` with a positive denominator: the model of the
Python `float` values manipulated by the predictor. -/
structure Q where
  num : Int
  den : Nat
  pos : 0 < den

/-- Value of a fraction as a rational number (used in proofs only). -/
def Q.val (a : Q) : ℚ := (a.num : ℚ) / (a.den : ℚ)

/-- Value equality of two fractions (Python `==` on floats). -/
def Q.eqv (a b : Q) : Prop := a.num * (b.den : Int) = b.num * (a.den : Int)

/-- Value strict order (Python `<` on floats). -/
def Q.lt (a b : Q) : Prop := a.num * (b.den : Int) < b.num * (a.den : Int)

/-- Value order (Python `<=` on floats). -/
def Q.le (a b : Q) : Prop := a.num * (b.den : Int) ≤ b.num * (a.den : Int)

instance (a b : Q) : Decidable (Q.eqv a b) :=
  inferInstanceAs (Decidable (_ = _))

instance (a b : Q) : Decidable (Q.lt a b) :=
  inferInstanceAs (Decidable (_ < _))

instance (a b : Q) : Decidable (Q.le a b) :=
  inferInstanceAs (Decidable (_ ≤ _))

instance : DecidableEq Q := fun a b =>
  decidable_of_iff (a.num = b.num ∧ a.den = b.den) (by
    constructor
    · rintro ⟨h1, h2⟩
      cases a
      cases b
      cases h1
      cases h2
      rfl
    · rintro rfl
      exact ⟨rfl, rfl⟩)

/-- The float `0.0` (initial value of the two running maxima in the source). -/
def qzero : Q := ⟨0, 1, Nat.one_pos⟩

/-- Exact float addition. -/
def qadd (a b : Q) : Q :=
  ⟨a.num * b.den + b.num * a.den, a.den * b.den, Nat.mul_pos a.pos b.pos⟩

/-- Exact float subtraction. -/
def qsub (a b : Q) : Q :=
  ⟨a.num * b.den - b.num * a.den, a.den * b.den, Nat.mul_pos a.pos b.pos⟩

/-- Exact float division by 2 (the `/ 2` of the source). -/
def qdiv2 (a : Q) : Q := ⟨a.num, a.den * 2, Nat.mul_pos a.pos (by decide)⟩

/-- Exact float division by 4 (the `/ 4` of the source). -/
def qdiv4 (a : Q) : Q := ⟨a.num, a.den * 4, Nat.mul_pos a.pos (by decide)⟩

/-- Round `n / d` (with `d > 0`) to the nearest integer, ties to even: the
rounding of Python's fixed-point float formatting. -/
def roundHalfEven (n : Int) (d : Nat) : Int :=
  let f := n.ediv d
  let r := n - f * d
  if 2 * r < (d : Int) then f
  else if (d : Int) < 2 * r then f + 1
  else if f % 2 = 0 then f else f + 1

/-- Decimal digits of a natural number, two characters, zero padded. -/
def pad2 (n : Nat) : String :=
  if n < 10 then "0" ++ toString n else toString n

/-- Nonnegative cents count rendered as a fixed two-decimal numeral. -/
def centsToString (c : Int) : String :=
  toString (c.toNat / 100) ++ "." ++ pad2 (c.toNat % 100)

/-- Model of Python `'{:.2f}'.format` on an exact float value: round the
value to a whole number of cents (half to even) and print two decimals,
keeping the sign in front as Python does. -/
def format2 (a : Q) : String :=
  if a.num < 0 then "-" ++ centsToString (roundHalfEven (-a.num * 100) a.den)
  else centsToString (roundHalfEven (a.num * 100) a.den)

/-- Digit list to number, `none` unless nonempty and all decimal digits. -/
def parseDigits (cs : List Char) : Option Nat :=
  if cs.isEmpty then none
  else if cs.all Char.isDigit then
    some (cs.foldl (fun a c => 10 * a + (c.toNat - 48)) 0)
  else none

/-- Split a character list on every dash. -/
def splitDash : List Char → List (List Char)
  | [] => [[]]
  | c :: cs =>
    let r := splitDash cs
    if c = '-' then [] :: r
    else (c :: r.headD []) :: r.tail

/-- Split a character list on every dot. -/
def splitDot : List Char → List (List Char)
  | [] => [[]]
  | c :: cs =>
    let r := splitDot cs
    if c = '.' then [] :: r
    else (c :: r.headD []) :: r.tail

/-- Model of Python `float` on the finite decimal notation relevant here:
an optional minus sign, then digits with at most one dot.  Exponents,
`inf`/`nan`, underscores and surrounding whitespace are outside the model
(all of them fail the validator's exact round-trip comparison anyway,
except the non-finite spellings, which are not exact fractions). -/
def parseFloat (s : String) : Option Q :=
  let cs := s.toList
  let body := if cs.headD ' ' = '-' then cs.tail else cs
  let sign : Int := if cs.headD ' ' = '-' then -1 else 1
  match splitDot body with
  | [ip] =>
    match parseDigits ip with
    | some n => some ⟨sign * (n : Int), 1, Nat.one_pos⟩
    | none => none
  | [ip, fp] =>
    if ip.all Char.isDigit ∧ fp.all Char.isDigit ∧ ¬(ip.isEmpty ∧ fp.isEmpty) then
      some ⟨sign * ((ip.foldl (fun a c => 10 * a + (c.toNat - 48)) 0 * 10 ^ fp.length
              + fp.foldl (fun a c => 10 * a + (c.toNat - 48)) 0 : Nat) : Int),
            10 ^ fp.length, Nat.pos_pow_of_pos _ (by decide)⟩
    else none
  | _ => none

/-- Calendar date (proleptic Gregorian, as Python's `datetime`). -/
structure Date where
  day : Nat
  month : Nat
  year : Nat
deriving DecidableEq

/-- Gregorian leap-year rule. -/
def isLeap (y : Nat) : Bool :=
  y % 4 == 0 && (y % 100 != 0 || y % 400 == 0)

/-- Number of days of a month. -/
def daysInMonth (y m : Nat) : Nat :=
  if m = 2 then (if isLeap y then 29 else 28)
  else if m = 4 ∨ m = 6 ∨ m = 9 ∨ m = 11 then 30
  else 31

/-- Model of `datetime.strptime s '%d-%m-%Y'`, restricted to canonical
zero-padded fields and four-digit years: exactly the strings on which the
source's parse-then-format round-trip can succeed. -/
def parseDate (s : String) : Option Date :=
  match splitDash s.toList with
  | [ds, ms, ys] =>
    if ds.length = 2 ∧ ms.length = 2 ∧ ys.length = 4 then
      match parseDigits ds, parseDigits ms, parseDigits ys with
      | some d, some m, some y =>
        if 1000 ≤ y ∧ 1 ≤ m ∧ m ≤ 12 ∧ 1 ≤ d ∧ d ≤ daysInMonth y m then
          some ⟨d, m, y⟩
        else none
      | _, _, _ => none
    else none
  | _ => none

/-- Model of `strftime '%d-%m-%Y'`. -/
def formatDate (d : Date) : String :=
  pad2 d.day ++ "-" ++ pad2 d.month ++ "-" ++ toString d.year

/-- Model of `date + timedelta(days=1)`: calendar day successor with
month and year rollover. -/
def nextDay (d : Date) : Date :=
  if d.day < daysInMonth d.year d.month then ⟨d.day + 1, d.month, d.year⟩
  else if d.month < 12 then ⟨1, d.month + 1, d.year⟩
  else ⟨1, 1, d.year + 1⟩

/-- Model of Python `str.isalpha` (ASCII letters; the repository's tickers
are ASCII). -/
def isAlphaStr (s : String) : Bool :=
  !s.toList.isEmpty && s.toList.all Char.isAlpha

/-- Date field check of `check_data_sanity`:
`row[1] != datetime.strptime(row[1], '%d-%m-%Y').strftime('%d-%m-%Y')`
with a parse error also yielding `False`. -/
def dateRoundTrip (s : String) : Bool :=
  match parseDate s with
  | some d => formatDate d == s
  | none => false

/-- Price field check of `check_data_sanity`:
`row[2] != '{:.2f}'.format(float(row[2]))` with a parse error also
yielding `False`. -/
def priceRoundTrip (s : String) : Bool :=
  match parseFloat s with
  | some q => format2 q == s
  | none => false

/-- Per-row body of the `for row in rows` loop of `check_data_sanity`:
`some false` is the `return False` paths, `some true` means the row
passed, `Option.none` is an uncaught `IndexError` from `row[0]`, `row[1]`
or `row[2]` on a row with too few fields. -/
def check_row (row : List String) : Option Bool :=
  match row.get? 0 with
  | none => none
  | some t =>
    if !isAlphaStr t then some false
    else
      match row.get? 1 with
      | none => none
      | some d =>
        if !dateRoundTrip d then some false
        else
          match row.get? 2 with
          | none => none
          | some p =>
            if !priceRoundTrip p then some false
            else some true

/-- Row loop of `check_data_sanity`, short-circuiting like the source. -/
def sanity_loop : List (List String) → Option Bool
  | [] => some true
  | r :: rs =>
    match check_row r with
    | none => none
    | some false => some false
    | some true => sanity_loop rs

/-- Model of `check_data_sanity` (the Validator): length guard first, then
the per-row loop; `Option.none` models an uncaught `IndexError`. -/
def check_data_sanity (rows : List (List String)) : Option Bool :=
  if rows.length < 10 then some false else sanity_loop rows

/-- The three field checks of one row, as used to characterise the
validator on rows having all three fields. -/
def rowValid (row : List String) : Bool :=
  isAlphaStr (row.getD 0 "") && dateRoundTrip (row.getD 1 "")
    && priceRoundTrip (row.getD 2 "")

/-- Validation strictness of `--data-sanity-check` (`file`, `sequence`, `none`). -/
inductive DataCheck
  | file
  | sequence
  | none
deriving DecidableEq

/-- How `extract_values` can fail: `sanityFail` is the warn-and-`return False`
path after `check_data_sanity` said `False`, `insufficientData` is the caught
`ValueError` of `random.randint(0, len rows - 10)` on fewer than 10 rows
(also warn-and-`return False`), `indexError` is an `IndexError` escaping
`check_data_sanity` (not caught anywhere). -/
inductive ExtractErr
  | sanityFail
  | insufficientData
  | indexError
deriving DecidableEq

/-- The `for i in range(10)` loop collecting `rows[random_index + i]`. -/
def sample_ten (rows : List (List String)) (k : Nat) : List (List String) :=
  (List.range 10).map (fun i => rows.getD (k + i) [])

/-- Second half of `extract_values`: the `random.randint` guard, the
sampling loop and the `sequence`-mode check.  `k` stands for the value
drawn by `random.randint(0, len rows - 10)`. -/
def extract_after_check (rows : List (List String)) (data_check : DataCheck)
    (k : Nat) : Except ExtractErr (List (List String)) :=
  if rows.length < 10 then Except.error ExtractErr.insufficientData
  else
    let ten_values := sample_ten rows k
    if data_check = DataCheck.sequence then
      match check_data_sanity ten_values with
      | Option.none => Except.error ExtractErr.indexError
      | some false => Except.error ExtractErr.sanityFail
      | some true => Except.ok ten_values
    else Except.ok ten_values

/-- Model of `extract_values` (the Sampler): whole-file check in `file`
mode, then sampling, then window check in `sequence` mode. -/
def extract_values (rows : List (List String)) (data_check : DataCheck)
    (k : Nat) : Except ExtractErr (List (List String)) :=
  if data_check = DataCheck.file then
    match check_data_sanity rows with
    | Option.none => Except.error ExtractErr.indexError
    | some false => Except.error ExtractErr.sanityFail
    | some true => extract_after_check rows data_check k
  else extract_after_check rows data_check k

/-- How `predict_values` can fail: `degenerate` is the deliberate
`raise ValueError('Cannot obtain second highest value! ...')`, `badRow` is
any exception from reading or parsing a row's fields (an `IndexError` on a
short row, or a `ValueError` from `float` / `strptime`). -/
inductive PredictErr
  | degenerate
  | badRow
deriving DecidableEq

/-- Price field of a row converted by `float(value[2])`. -/
def priceOf (row : List String) : Option Q :=
  match row.get? 2 with
  | some s => parseFloat s
  | none => none

/-- Prices of all rows, `Option.none` as soon as one row fails (the first
exception raised inside the loops of `predict_values`). -/
def pricesOf : List (List String) → Option (List Q)
  | [] => some []
  | r :: rs =>
    match priceOf r, pricesOf rs with
    | some p, some ps => some (p :: ps)
    | _, _ => none

/-- First loop of `predict_values`: running maximum started at 0. -/
def highestOf (prices : List Q) : Q :=
  prices.foldl (fun h p => if Q.lt h p then p else h) qzero

/-- Second loop of `predict_values`: running maximum over the prices whose
value differs from `highest`, started at 0. -/
def secondHighestOf (prices : List Q) (highest : Q) : Q :=
  prices.foldl (fun s p => if Q.lt s p ∧ ¬Q.eqv p highest then p else s) qzero

/-- Model of `predict_values` (the Predictor), step for step from the
source: two scan loops, the degenerate-input guard, the three predicted
prices (note that both branches of the source's `if` ADD the quarter
difference), the date parse of the last row and the three output rows. -/
def predict_values (values : List (List String)) :
    Except PredictErr (List (List String)) :=
  match pricesOf values with
  | Option.none => Except.error PredictErr.badRow
  | some prices =>
    let highest := highestOf prices
    let second_highest := secondHighestOf prices highest
    if Q.eqv second_highest qzero then Except.error PredictErr.degenerate
    else
      let first_prediction := second_highest
      let second_prediction := qdiv2 (qadd (prices.getLastD qzero) first_prediction)
      let third_prediction :=
        if Q.le first_prediction second_prediction then
          qadd second_prediction (qdiv4 (qsub second_prediction first_prediction))
        else
          qadd second_prediction (qdiv4 (qsub first_prediction second_prediction))
      let predictions := [format2 first_prediction, format2 second_prediction,
                          format2 third_prediction]
      match parseDate ((values.getLastD []).getD 1 "") with
      | Option.none => Except.error PredictErr.badRow
      | some date =>
        let ticker := (values.headD []).getD 0 ""
        let day1 := nextDay date
        let day2 := nextDay day1
        let day3 := nextDay day2
        Except.ok [[ticker, formatDate day1, predictions.getD 0 ""],
                   [ticker, formatDate day2, predictions.getD 1 ""],
                   [ticker, formatDate day3, predictions.getD 2 ""]]

/-- One input file as the orchestrator sees it: its parsed rows and the
offset its `random.randint` call returns. -/
structure FileInput where
  rows : List (List String)
  k : Nat

/-- How a run of `main` can abort: an exception escaping `extract_values`
or `predict_values` (nothing in `main` catches either). -/
inductive MainErr
  | fromExtract
  | fromPredict (e : PredictErr)
deriving DecidableEq

/-- Model of the `for file in files` loop of `main`: a falsy result of
`extract_values` skips the file, an exception aborts the whole run, and a
successful file appends `values + predicted_values` to the written
outputs. -/
def main_loop (data_check : DataCheck) :
    List FileInput → Except MainErr (List (List (List String)))
  | [] => Except.ok []
  | f :: fs =>
    match extract_values f.rows data_check f.k with
    | Except.error ExtractErr.indexError => Except.error MainErr.fromExtract
    | Except.error _ => main_loop data_check fs
    | Except.ok values =>
      match predict_values values with
      | Except.error e => Except.error (MainErr.fromPredict e)
      | Except.ok predicted =>
        match main_loop data_check fs with
        | Except.error e => Except.error e
        | Except.ok rest => Except.ok ((values ++ predicted) :: rest)

/-- The window of the spec's worked example (§8): prices
10, 20, 20, 5, 20, 15, 20, 8, 20, 12. -/
def w3 : List (List String) :=
  [["AAPL", "01-01-2021", "10.00"],
   ["AAPL", "02-01-2021", "20.00"],
   ["AAPL", "03-01-2021", "20.00"],
   ["AAPL", "04-01-2021", "5.00"],
   ["AAPL", "05-01-2021", "20.00"],
   ["AAPL", "06-01-2021", "15.00"],
   ["AAPL", "07-01-2021", "20.00"],
   ["AAPL", "08-01-2021", "8.00"],
   ["AAPL", "09-01-2021", "20.00"],
   ["AAPL", "10-01-2021", "12.00"]]

/-- The same prices on a window ending 28-02-2021 (non-leap year). -/
def w28 : List (List String) :=
  [["AAPL", "19-02-2021", "10.00"],
   ["AAPL", "20-02-2021", "20.00"],
   ["AAPL", "21-02-2021", "20.00"],
   ["AAPL", "22-02-2021", "5.00"],
   ["AAPL", "23-02-2021", "20.00"],
   ["AAPL", "24-02-2021", "15.00"],
   ["AAPL", "25-02-2021", "20.00"],
   ["AAPL", "26-02-2021", "8.00"],
   ["AAPL", "27-02-2021", "20.00"],
   ["AAPL", "28-02-2021", "12.00"]]

/-- A window whose 10 prices all equal 50.00. -/
def w50 : List (List String) :=
  [["AAPL", "01-01-2021", "50.00"],
   ["AAPL", "02-01-2021", "50.00"],
   ["AAPL", "03-01-2021", "50.00"],
   ["AAPL", "04-01-2021", "50.00"],
   ["AAPL", "05-01-2021", "50.00"],
   ["AAPL", "06-01-2021", "50.00"],
   ["AAPL", "07-01-2021", "50.00"],
   ["AAPL", "08-01-2021", "50.00"],
   ["AAPL", "09-01-2021", "50.00"],
   ["AAPL", "10-01-2021", "50.00"]]

/-- A window with one price 5.00 and nine prices 0.00: not all identical,
not all zero, but no price strictly between 0 and the maximum. -/
def w05 : List (List String) :=
  [["AAPL", "01-01-2021", "5.00"],
   ["AAPL", "02-01-2021", "0.00"],
   ["AAPL", "03-01-2021", "0.00"],
   ["AAPL", "04-01-2021", "0.00"],
   ["AAPL", "05-01-2021", "0.00"],
   ["AAPL", "06-01-2021", "0.00"],
   ["AAPL", "07-01-2021", "0.00"],
   ["AAPL", "08-01-2021", "0.00"],
   ["AAPL", "09-01-2021", "0.00"],
   ["AAPL", "10-01-2021", "0.00"]]

/-- First 9 rows of `w3`: a well-formed row set that is one row short. -/
def rows9 : List (List String) := w3.take 9

/-- The output the embedded code computes on `w3`. -/
def w3pred : List (List String) :=
  [["AAPL", "11-01-2021", "15.00"],
   ["AAPL", "12-01-2021", "13.50"],
   ["AAPL", "13-01-2021", "13.88"]]

/-- The output the embedded code computes on `w28`. -/
def w28pred : List (List String) :=
  [["AAPL", "01-03-2021", "15.00"],
   ["AAPL", "02-03-2021", "13.50"],
   ["AAPL", "03-03-2021", "13.88"]]

/-- The parsed price 50.00 as `parseFloat "50.00"` represents it. -/
def q50 : Q := ⟨5000, 100, by decide⟩

/-- The 10 parsed prices of `w50`. -/
def ps50 : List Q := List.replicate 10 q50

/-- The parsed price 5.00. -/
def q500 : Q := ⟨500, 100, by decide⟩

/-- The parsed price 0.00. -/
def qz100 : Q := ⟨0, 100, by decide⟩

/-- The 10 parsed prices of `w05`. -/
def ps05 : List Q := q500 :: List.replicate 9 qz100

/-- The value 15.00 as the predictor computes `first_prediction` on `w3`. -/
def q1500 : Q := ⟨1500, 100, by decide⟩

/-- The value 13.50 of `second_prediction` on `w3`. -/
def q1350 : Q := ⟨1350, 100, by decide⟩

/-- A valid list with its first row's ticker replaced by `"AAPL1"`. -/
def badTicker10 : List (List String) :=
  ["AAPL1", "01-01-2021", "10.00"] :: w3.tail

/-- A valid list with its first row's date replaced by `31-02-2021`. -/
def badDate10 : List (List String) :=
  ["AAPL", "31-02-2021", "10.00"] :: w3.tail

/-- A valid list with its first row's price replaced by `"10.5"`. -/
def badPrice10 : List (List String) :=
  ["AAPL", "01-01-2021", "10.5"] :: w3.tail

/-- A 10-row list each of whose rows is the single field `"AAPL1"`. -/
def allShort10 : List (List String) :=
  List.replicate 10 (["AAPL1"] : List String)

/-- A well-formed 9-row prefix followed by a row missing its price field. -/
def good9short : List (List String) :=
  rows9 ++ [["AAPL", "10-01-2021"]]

lemma Q.lt_iff_val (a b : Q) : Q.lt a b ↔ a.val < b.val := by
  unfold Q.lt Q.val
  rw [div_lt_div_iff₀ (by exact_mod_cast a.pos) (by exact_mod_cast b.pos)]
  constructor <;> intro h <;> exact_mod_cast h

lemma Q.le_iff_val (a b : Q) : Q.le a b ↔ a.val ≤ b.val := by
  unfold Q.le Q.val
  rw [div_le_div_iff₀ (by exact_mod_cast a.pos) (by exact_mod_cast b.pos)]
  constructor <;> intro h <;> exact_mod_cast h

lemma Q.eqv_iff_val (a b : Q) : Q.eqv a b ↔ a.val = b.val := by
  unfold Q.eqv Q.val
  rw [div_eq_div_iff (Nat.cast_ne_zero.mpr a.pos.ne') (Nat.cast_ne_zero.mpr b.pos.ne')]
  constructor <;> intro h <;> exact_mod_cast h

lemma qzero_val : qzero.val = 0 := by
  simp [Q.val, qzero]

lemma foldl_hi_init_le (ps : List Q) :
    ∀ a : Q, a.val ≤ (ps.foldl (fun h p => if Q.lt h p then p else h) a).val := by
  induction ps with
  | nil => intro a; exact le_refl _
  | cons p ps ih =>
    intro a
    simp only [List.foldl_cons]
    refine le_trans ?_ (ih (if Q.lt a p then p else a))
    by_cases h : Q.lt a p
    · rw [if_pos h]
      exact le_of_lt ((Q.lt_iff_val a p).mp h)
    · rw [if_neg h]

lemma foldl_hi_mem_le (ps : List Q) :
    ∀ (a p : Q), p ∈ ps →
      p.val ≤ (ps.foldl (fun h q => if Q.lt h q then q else h) a).val := by
  induction ps with
  | nil => intro a p h; cases h
  | cons q ps ih =>
    intro a p hp
    simp only [List.foldl_cons]
    rcases List.mem_cons.mp hp with rfl | hmem
    · refine le_trans ?_ (foldl_hi_init_le ps (if Q.lt a p then p else a))
      by_cases h : Q.lt a p
      · rw [if_pos h]
      · rw [if_neg h]
        exact le_of_not_lt (fun hc => h ((Q.lt_iff_val a p).mpr hc))
    · exact ih _ p hmem

lemma foldl_hi_mem (ps : List Q) :
    ∀ a : Q, ps.foldl (fun h q => if Q.lt h q then q else h) a = a
      ∨ ps.foldl (fun h q => if Q.lt h q then q else h) a ∈ ps := by
  induction ps with
  | nil => intro a; exact Or.inl rfl
  | cons q ps ih =>
    intro a
    simp only [List.foldl_cons]
    rcases ih (if Q.lt a q then q else a) with h | h
    · rw [h]
      by_cases hc : Q.lt a q
      · rw [if_pos hc]
        exact Or.inr (List.mem_cons_self q ps)
      · rw [if_neg hc]
        exact Or.inl rfl
    · exact Or.inr (List.mem_cons_of_mem q h)

lemma secondHighestOf_eq_zero (hi : Q) :
    ∀ ps : List Q, (∀ p ∈ ps, ¬Q.lt qzero p ∨ Q.eqv p hi) →
      secondHighestOf ps hi = qzero := by
  intro ps
  induction ps with
  | nil => intro _; rfl
  | cons p ps ih =>
    intro h
    have hcond : ¬(Q.lt qzero p ∧ ¬Q.eqv p hi) := by
      rcases h p (List.mem_cons_self p ps) with hl | he
      · exact fun hc => hl hc.1
      · exact fun hc => hc.2 he
    have : secondHighestOf (p :: ps) hi = secondHighestOf ps hi := by
      simp only [secondHighestOf, List.foldl_cons, if_neg hcond]
    rw [this]
    exact ih (fun q hq => h q (List.mem_cons_of_mem p hq))

lemma pricesOf_length : ∀ (w : List (List String)) (ps : List Q),
    pricesOf w = some ps → ps.length = w.length := by
  intro w
  induction w with
  | nil =>
    intro ps h
    simp only [pricesOf] at h
    cases h
    rfl
  | cons r rs ih =>
    intro ps h
    simp only [pricesOf] at h
    cases h1 : priceOf r with
    | none => rw [h1] at h; cases h
    | some p =>
      rw [h1] at h
      cases h2 : pricesOf rs with
      | none => rw [h2] at h; cases h
      | some qs =>
        rw [h2] at h
        cases h
        simp [ih qs h2]

lemma predict_degenerate (w : List (List String)) (ps : List Q)
    (hp : pricesOf w = some ps)
    (h : ∀ p ∈ ps, ¬Q.lt qzero p ∨ Q.eqv p (highestOf ps)) :
    predict_values w = Except.error PredictErr.degenerate := by
  have hz : secondHighestOf ps (highestOf ps) = qzero :=
    secondHighestOf_eq_zero (highestOf ps) ps h
  simp only [predict_values, hp, highestOf, secondHighestOf] at hz ⊢
  rw [hz]
  rw [if_pos (by unfold Q.eqv qzero; rfl)]

/-- C8: for every 10-row window whose prices all have one and the same
value, `predict_values` raises the degenerate-input error: no price ever
differs from `highest`, so `second_highest` stays 0 and the guard fires. -/
theorem claim_C8_all_equal_degenerate (w : List (List String)) (ps : List Q) (c : Q)
    (hlen : w.length = 10) (hp : pricesOf w = some ps)
    (hall : ∀ p ∈ ps, Q.eqv p c) :
    predict_values w = Except.error PredictErr.degenerate := by
  apply predict_degenerate w ps hp
  intro p hpm
  unfold highestOf
  by_cases hc : 0 < c.val
  · right
    rcases foldl_hi_mem ps qzero with hh | hh
    · exfalso
      have hne : ps ≠ [] := by
        have hl := pricesOf_length w ps hp
        intro h0
        rw [h0] at hl
        simp at hl
        omega
      obtain ⟨p0, hp0⟩ := List.exists_mem_of_ne_nil ps hne
      have h1 : p0.val ≤ (ps.foldl (fun h q => if Q.lt h q then q else h) qzero).val :=
        foldl_hi_mem_le ps qzero p0 hp0
      rw [hh, qzero_val] at h1
      have h2 : p0.val = c.val := (Q.eqv_iff_val p0 c).mp (hall p0 hp0)
      rw [h2] at h1
      exact absurd (lt_of_lt_of_le hc h1) (lt_irrefl 0)
    · have h3 : (ps.foldl (fun h q => if Q.lt h q then q else h) qzero).val = c.val :=
        (Q.eqv_iff_val _ c).mp (hall _ hh)
      have h4 : p.val = c.val := (Q.eqv_iff_val p c).mp (hall p hpm)
      exact (Q.eqv_iff_val _ _).mpr (h4.trans h3.symm)
  · left
    intro hl
    have h5 := (Q.lt_iff_val qzero p).mp hl
    rw [qzero_val] at h5
    have h4 : p.val = c.val := (Q.eqv_iff_val p c).mp (hall p hpm)
    rw [h4] at h5
    exact hc h5

/-- Witness for C8 at the spec's concrete instance: a window of ten prices
all equal to 50.00 makes the Predictor fail with the degenerate error. -/
theorem claim_C8_all_equal_degenerate_w :
    predict_values w50 = Except.error PredictErr.degenerate :=
  claim_C8_all_equal_degenerate w50 ps50 q50 (by decide) (by decide) (by decide)

/-- C9: for every 10-row window in which each price strictly below the
maximum price is 0, `predict_values` raises the degenerate-input error:
the second scan skips the maximal prices and never exceeds its 0 start. -/
theorem claim_C9_below_max_zero_degenerate (w : List (List String)) (ps : List Q)
    (m : Q) (_hlen : w.length = 10) (hp : pricesOf w = some ps) (hm : m ∈ ps)
    (hub : ∀ p ∈ ps, Q.le p m)
    (hz : ∀ p ∈ ps, Q.lt p m → Q.eqv p qzero) :
    predict_values w = Except.error PredictErr.degenerate := by
  apply predict_degenerate w ps hp
  intro p hpm
  unfold highestOf
  by_cases hlt : Q.lt p m
  · left
    intro hc
    have h0 : p.val = 0 := by
      have h1 := (Q.eqv_iff_val p qzero).mp (hz p hpm hlt)
      rwa [qzero_val] at h1
    have h2 := (Q.lt_iff_val qzero p).mp hc
    rw [qzero_val, h0] at h2
    exact lt_irrefl 0 h2
  · have hpm_val : p.val = m.val :=
      le_antisymm ((Q.le_iff_val p m).mp (hub p hpm))
        (le_of_not_lt (fun hcc => hlt ((Q.lt_iff_val p m).mpr hcc)))
    by_cases hmp : 0 < m.val
    · right
      rcases foldl_hi_mem ps qzero with hh | hh
      · exfalso
        have h1 : m.val ≤ (ps.foldl (fun h q => if Q.lt h q then q else h) qzero).val :=
          foldl_hi_mem_le ps qzero m hm
        rw [hh, qzero_val] at h1
        exact absurd (lt_of_lt_of_le hmp h1) (lt_irrefl 0)
      · have h2 : (ps.foldl (fun h q => if Q.lt h q then q else h) qzero).val ≤ m.val :=
          (Q.le_iff_val _ m).mp (hub _ hh)
        have h3 : m.val ≤ (ps.foldl (fun h q => if Q.lt h q then q else h) qzero).val :=
          foldl_hi_mem_le ps qzero m hm
        exact (Q.eqv_iff_val _ _).mpr (hpm_val.trans (le_antisymm h2 h3).symm)
    · left
      intro hc
      have h2 := (Q.lt_iff_val qzero p).mp hc
      rw [qzero_val, hpm_val] at h2
      exact hmp h2

/-- Witness for C9 at the concrete instance of the claim: nine prices 0.00
and one price 5.00, neither all identical nor all zero, still degenerate. -/
theorem claim_C9_below_max_zero_degenerate_w :
    predict_values w05 = Except.error PredictErr.degenerate
    ∧ ¬Q.eqv q500 qz100 ∧ ¬Q.eqv q500 qzero :=
  ⟨claim_C9_below_max_zero_degenerate w05 ps05 q500 (by decide) (by decide)
      (by decide) (by decide) (by decide),
   by decide, by decide⟩

/-- C1 (code_bug exhibit): on the spec's example window the code computes
`prediction[2] = 13.50 < 15.00 = prediction[1]` and `delta = 0.375`, yet
emits `13.88 = prediction[2] + delta`; the claim's
`prediction[2] - delta` would format to `13.12`.  Both branches of the
source's `if` add the (nonnegative) quarter difference, so the subtraction
case the claim describes never happens. -/
theorem claim_C1_third_prediction_adds_delta :
    predict_values w3 = Except.ok w3pred
    ∧ Q.lt q1350 q1500
    ∧ (w3pred.getD 2 []).getD 2 "" = "13.88"
    ∧ format2 (qadd q1350 (qdiv4 (qsub q1500 q1350))) = "13.88"
    ∧ format2 (qsub q1350 (qdiv4 (qsub q1500 q1350))) = "13.12" := by
  decide

/-- C3 (code_bug exhibit): on the window with prices
10, 20, 20, 5, 20, 15, 20, 8, 20, 12 the code predicts 15.00 and 13.50 as
the claim says, but its third prediction is 13.88 (= 13.50 + 0.375), not
13.125 formatted as 13.12 or 13.13. -/
theorem claim_C3_example_window_output :
    predict_values w3 = Except.ok w3pred
    ∧ (w3pred.getD 0 []).getD 2 "" = "15.00"
    ∧ (w3pred.getD 1 []).getD 2 "" = "13.50"
    ∧ (w3pred.getD 2 []).getD 2 "" = "13.88"
    ∧ (w3pred.getD 2 []).getD 2 "" ≠ "13.12"
    ∧ (w3pred.getD 2 []).getD 2 "" ≠ "13.13" := by
  decide

lemma check_row_of_three (r : List String) (h : 3 ≤ r.length) :
    check_row r = some (rowValid r) := by
  rcases r with _ | ⟨a, _ | ⟨b, _ | ⟨c, t⟩⟩⟩
  · simp at h
  · simp at h
  · simp at h
  · cases hA : isAlphaStr a <;> cases hD : dateRoundTrip b <;>
      cases hP : priceRoundTrip c <;>
      simp [check_row, rowValid, hA, hD, hP, List.getD]

lemma sanity_loop_eq_true (rows : List (List String)) :
    sanity_loop rows = some true ↔ ∀ r ∈ rows, check_row r = some true := by
  induction rows with
  | nil => simp [sanity_loop]
  | cons r rs ih =>
    cases h : check_row r with
    | none => simp [sanity_loop, h]
    | some b => cases b <;> simp [sanity_loop, h, ih]

/-- C5: on sequences whose rows all have at least three fields the
validator returns `True` exactly when there are at least 10 rows and every
row passes the ticker / date-round-trip / price-round-trip checks; it
rejects the ticker `"AAPL1"`, the date `"31-02-2021"` and the price
`"10.5"` each on its own, and accepts the well-formed 10-row list `w3`. -/
theorem claim_C5_validator_characterisation :
    (∀ rows : List (List String), (∀ r ∈ rows, 3 ≤ r.length) →
        (check_data_sanity rows = some true ↔
          10 ≤ rows.length ∧ ∀ r ∈ rows, rowValid r = true))
    ∧ check_data_sanity badTicker10 = some false
    ∧ check_data_sanity badDate10 = some false
    ∧ check_data_sanity badPrice10 = some false
    ∧ check_data_sanity w3 = some true := by
  refine ⟨?_, by decide, by decide, by decide, by decide⟩
  intro rows h3
  unfold check_data_sanity
  by_cases hl : rows.length < 10
  · rw [if_pos hl]
    simp only [Option.some.injEq, Bool.false_eq_true, false_iff]
    rintro ⟨h10, -⟩
    omega
  · rw [if_neg hl, sanity_loop_eq_true]
    have hcr : ∀ r ∈ rows, check_row r = some (rowValid r) :=
      fun r hr => check_row_of_three r (h3 r hr)
    constructor
    · intro h
      refine ⟨by omega, fun r hr => ?_⟩
      have h1 := h r hr
      rw [hcr r hr] at h1
      injection h1
    · rintro ⟨-, h⟩ r hr
      rw [hcr r hr, h r hr]

/-- Witness for C5: the characterisation applied to the concrete
well-formed list `w3`. -/
theorem claim_C5_validator_characterisation_w :
    check_data_sanity w3 = some true ↔
      10 ≤ w3.length ∧ ∀ r ∈ w3, rowValid r = true :=
  claim_C5_validator_characterisation.1 w3 (by decide)

lemma sanity_loop_append_none (r : List String) (post : List (List String)) :
    ∀ pre : List (List String), (∀ q ∈ pre, check_row q = some true) →
      check_row r = Option.none → sanity_loop (pre ++ r :: post) = Option.none := by
  intro pre
  induction pre with
  | nil =>
    intro _ hr
    simp [sanity_loop, hr]
  | cons q pre ih =>
    intro hpre hr
    have hq : check_row q = some true := hpre q (List.mem_cons_self q pre)
    simp only [List.cons_append, sanity_loop, hq]
    exact ih (fun x hx => hpre x (List.mem_cons_of_mem q hx)) hr

/-- C10 (amended): the validator is not total — whenever its row scan
reaches a row with fewer than three fields whose present fields pass their
checks (every earlier row passing), it raises `IndexError` instead of
returning `False`; and an `IndexError` can only come from such a short
row.  (As originally stated — for EVERY sequence containing a short row —
the claim is false: an earlier check can fail first and return `False`,
see the counterexample.) -/
theorem claim_C10_short_row_index_error :
    (∀ (pre : List (List String)) (r : List String) (post : List (List String)),
        10 ≤ (pre ++ r :: post).length →
        (∀ q ∈ pre, check_row q = some true) →
        check_row r = Option.none →
        check_data_sanity (pre ++ r :: post) = Option.none)
    ∧ (∀ r : List String, check_row r = Option.none → r.length < 3) := by
  constructor
  · intro pre r post hlen hpre hr
    unfold check_data_sanity
    rw [if_neg (by omega)]
    exact sanity_loop_append_none r post pre hpre hr
  · intro r h
    by_contra hc
    push_neg at hc
    rw [check_row_of_three r hc] at h
    cases h

/-- Counterexample to C10 as stated: `allShort10` has 10 rows and every
row has fewer than 3 fields, yet the validator returns `False` (the ticker
check fails before any out-of-range access). -/
theorem claim_C10_short_row_index_error_cex :
    allShort10.length = 10
    ∧ (∃ r ∈ allShort10, r.length < 3)
    ∧ check_data_sanity allShort10 = some false := by
  decide

/-- Witness for C10 (amended): a short row whose present fields are valid,
after nine fully valid rows, makes the validator raise `IndexError`. -/
theorem claim_C10_short_row_index_error_w :
    check_data_sanity good9short = Option.none
    ∧ (["AAPL", "10-01-2021"] : List String).length < 3 :=
  ⟨claim_C10_short_row_index_error.1 rows9 ["AAPL", "10-01-2021"] []
      (by decide) (by decide) (by decide),
   by decide⟩

/-- C4 (amended): on fewer than 10 rows the sampler path
(`random.randint` raising `ValueError`) fires only in `none` and
`sequence` modes; in `file` mode the whole-file sanity check fails first
(its own length guard) and the failure is reported as corrupted data, the
same way as a validation failure. -/
theorem claim_C4_short_input_errors (rows : List (List String)) (k : Nat)
    (h : rows.length < 10) :
    extract_values rows DataCheck.none k = Except.error ExtractErr.insufficientData
    ∧ extract_values rows DataCheck.sequence k = Except.error ExtractErr.insufficientData
    ∧ extract_values rows DataCheck.file k = Except.error ExtractErr.sanityFail := by
  have hsan : check_data_sanity rows = some false := by
    unfold check_data_sanity
    rw [if_pos h]
  refine ⟨?_, ?_, ?_⟩
  · simp [extract_values, extract_after_check, h]
  · simp [extract_values, extract_after_check, h]
  · simp [extract_values, hsan]

/-- Counterexample to C4 as stated: a 9-row set under `file` mode fails
through the sanity-check path, not with the (distinct) insufficient-data
error the claim promises for every validation mode. -/
theorem claim_C4_short_input_errors_cex :
    extract_values rows9 DataCheck.file 0 = Except.error ExtractErr.sanityFail
    ∧ ExtractErr.sanityFail ≠ ExtractErr.insufficientData := by
  decide

/-- Witness for C4 (amended) at the concrete 9-row set. -/
theorem claim_C4_short_input_errors_w :
    extract_values rows9 DataCheck.none 0 = Except.error ExtractErr.insufficientData
    ∧ extract_values rows9 DataCheck.sequence 0 = Except.error ExtractErr.insufficientData
    ∧ extract_values rows9 DataCheck.file 0 = Except.error ExtractErr.sanityFail :=
  claim_C4_short_input_errors rows9 0 (by decide)

/-- C2 (amended): a Predictor failure is NOT caught by `main`: as soon as
one file's window makes `predict_values` raise, the whole run aborts with
that error and no later file is processed.  Only falsy results of
`extract_values` (sanity or insufficient-data failures) merely skip the
file. -/
theorem claim_C2_predict_failure_aborts_run (dc : DataCheck) (f : FileInput)
    (fs : List FileInput) (w : List (List String)) (e : PredictErr)
    (hex : extract_values f.rows dc f.k = Except.ok w)
    (hpred : predict_values w = Except.error e) :
    main_loop dc (f :: fs) = Except.error (MainErr.fromPredict e) := by
  simp [main_loop, hex, hpred]

/-- Counterexample to C2 as stated: with a degenerate first file and a
perfectly processable second file, the run ends in an error carrying no
outputs — the second file is never reached — although on its own the
second file would be processed fine. -/
theorem claim_C2_predict_failure_aborts_run_cex :
    main_loop DataCheck.none [⟨w50, 0⟩, ⟨w3, 0⟩]
        = Except.error (MainErr.fromPredict PredictErr.degenerate)
    ∧ (main_loop DataCheck.none [⟨w3, 0⟩]).isOk = true := by
  decide

/-- Witness for C2 (amended) at the concrete two-file run. -/
theorem claim_C2_predict_failure_aborts_run_w :
    main_loop DataCheck.none [⟨w50, 0⟩, ⟨w3, 0⟩]
      = Except.error (MainErr.fromPredict PredictErr.degenerate) :=
  claim_C2_predict_failure_aborts_run DataCheck.none ⟨w50, 0⟩ [⟨w3, 0⟩] w50
    PredictErr.degenerate (by decide) (by decide)

lemma range_map_getD {α : Type} (l : List α) (d : α) :
    ∀ (n k : Nat), k + n ≤ l.length →
      (List.range n).map (fun i => l.getD (k + i) d) = (l.drop k).take n := by
  intro n
  induction n with
  | zero => simp
  | succ n ih =>
    intro k h
    rw [List.range_succ, List.map_append, ih k (by omega)]
    simp only [List.map_cons, List.map_nil]
    rw [List.take_succ]
    congr 1
    rw [List.getElem?_drop, List.getElem?_eq_getElem (by omega)]
    simp [List.getD_eq_getElem?_getD, List.getElem?_eq_getElem (show k + n < l.length by omega)]

lemma sample_ten_eq (rows : List (List String)) (k : Nat)
    (h : k + 10 ≤ rows.length) :
    sample_ten rows k = (rows.drop k).take 10 :=
  range_map_getD rows [] 10 k h

/-- C6: for every row set of at least 10 rows and every admissible offset
`k ≤ len rows - 10` (the range `random.randint(0, len rows - 10)` draws
from), with validation passing or disabled, `extract_values` returns
exactly the 10 consecutive rows starting at `k`, in original order. -/
theorem claim_C6_sampler_window (rows : List (List String)) (dc : DataCheck)
    (k : Nat) (h10 : 10 ≤ rows.length) (hk : k ≤ rows.length - 10)
    (hfile : dc = DataCheck.file → check_data_sanity rows = some true)
    (hseq : dc = DataCheck.sequence →
      check_data_sanity ((rows.drop k).take 10) = some true) :
    extract_values rows dc k = Except.ok ((rows.drop k).take 10) := by
  have hs : sample_ten rows k = (rows.drop k).take 10 :=
    sample_ten_eq rows k (by omega)
  cases dc with
  | file =>
    simp [extract_values, hfile rfl, extract_after_check, Nat.not_lt.mpr h10, hs]
  | sequence =>
    simp [extract_values, extract_after_check, Nat.not_lt.mpr h10, hs, hseq rfl]
  | none =>
    simp [extract_values, extract_after_check, Nat.not_lt.mpr h10, hs]

/-- Witness for C6: a 12-row set sampled at offset 2 in `file` mode
returns rows 2 through 11. -/
theorem claim_C6_sampler_window_w :
    extract_values (w3 ++ rows9) DataCheck.file 2
      = Except.ok (((w3 ++ rows9).drop 2).take 10) :=
  claim_C6_sampler_window (w3 ++ rows9) DataCheck.file 2 (by decide) (by decide)
    (fun _ => by decide) (fun h => by cases h)

/-- C7: whenever `predict_values` succeeds on a 10-row window it returns
exactly 3 rows, each carrying the ticker of the window's first row, dated
1, 2 and 3 calendar days (with month/year rollover) after the date parsed
from the window's last row. -/
theorem claim_C7_output_shape (w out : List (List String)) (d : Date)
    (_hlen : w.length = 10)
    (hok : predict_values w = Except.ok out)
    (hd : parseDate ((w.getLastD []).getD 1 "") = some d) :
    out.length = 3
    ∧ out.map (fun r => r.getD 0 "") = List.replicate 3 ((w.headD []).getD 0 "")
    ∧ out.map (fun r => r.getD 1 "")
        = [formatDate (nextDay d), formatDate (nextDay (nextDay d)),
           formatDate (nextDay (nextDay (nextDay d)))] := by
  cases hps : pricesOf w with
  | none =>
    simp only [predict_values, hps] at hok
    cases hok
  | some prices =>
    by_cases hdeg : Q.eqv (secondHighestOf prices (highestOf prices)) qzero
    · simp only [predict_values, hps, if_pos hdeg] at hok
      cases hok
    · simp only [predict_values, hps, if_neg hdeg, hd] at hok
      injection hok with h
      subst h
      refine ⟨rfl, ?_, ?_⟩ <;> simp [List.getD, List.replicate]

/-- Witness for C7 at the spec's rollover example: a window ending
`28-02-2021` (non-leap year) yields predictions dated `01-03-2021`,
`02-03-2021` and `03-03-2021`, all with the window's ticker. -/
theorem claim_C7_output_shape_w :
    w28pred.length = 3
    ∧ w28pred.map (fun r => r.getD 0 "") = List.replicate 3 ((w28.headD []).getD 0 "")
    ∧ w28pred.map (fun r => r.getD 1 "")
        = [formatDate (nextDay ⟨28, 2, 2021⟩),
           formatDate (nextDay (nextDay ⟨28, 2, 2021⟩)),
           formatDate (nextDay (nextDay (nextDay ⟨28, 2, 2021⟩)))] :=
  claim_C7_output_shape w28 w28pred ⟨28, 2, 2021⟩ (by decide) (by decide) (by decide)
